import Mathlib

/-!
Verification of the user-record CRUD store of this repository.

Two variants are embedded:
* `Base`  — `src/users/user.service.ts`: the list of users is the whole
  state; `create` derives the new id from the current array length.
* `Dto`   — the DTO variant of `readme2.md`: the state additionally
  carries a persistent `idCounter`, and `update` shallow-merges a
  partial DTO into the stored record.

TypeScript arrays become Lean lists, `find`/`findIndex` become
`List.find?`/`List.findIdx?`, `splice(i, 1)` becomes `List.eraseIdx i`,
in-place assignment `users[i] = u` becomes `List.set i u`, and the
`undefined`/`null` returns become `Option.none`.
-/

structure User where
  id : Nat
  name : String
  email : String
deriving DecidableEq, Repr

namespace Base

/-- The base-variant `create`: `{ id: this.users.length + 1, name, email }`
is pushed onto the array and returned. -/
def create (users : List User) (name email : String) : List User × User :=
  let user : User := { id := users.length + 1, name := name, email := email }
  (users ++ [user], user)

/-- `findAll` returns the backing array itself. -/
def findAll (users : List User) : List User :=
  users

/-- `findOne` is `this.users.find((user) => user.id === id)`. -/
def findOne (users : List User) (id : Nat) : Option User :=
  users.find? (fun user => user.id == id)

/-- `update` looks up the first index whose record has the given id,
overwrites that slot with `{ id, name, email }` and returns it;
otherwise returns `null`. -/
def update (users : List User) (id : Nat) (name email : String) :
    List User × Option User :=
  match users.findIdx? (fun user => user.id == id) with
  | some userIndex =>
      let updated : User := { id := id, name := name, email := email }
      (users.set userIndex updated, some updated)
  | none => (users, none)

/-- `remove` looks up the first index whose record has the given id and
splices it out, returning `true`; otherwise returns `false`. -/
def remove (users : List User) (id : Nat) : List User × Bool :=
  match users.findIdx? (fun user => user.id == id) with
  | some userIndex => (users.eraseIdx userIndex, true)
  | none => (users, false)

end Base

/-- `CreateUserDto` of the DTO variant: both fields required. -/
structure CreateUserDto where
  name : String
  email : String
deriving DecidableEq, Repr

/-- `UpdateUserDto` of the DTO variant: both fields optional. -/
structure UpdateUserDto where
  name : Option String
  email : Option String
deriving DecidableEq, Repr

namespace Dto

/-- The DTO-variant service state: the users array together with the
persistent `idCounter` field (initially `1`). -/
structure ServiceState where
  users : List User
  idCounter : Nat
deriving DecidableEq, Repr

/-- The state of a freshly constructed service: empty array, counter 1. -/
def initState : ServiceState :=
  { users := [], idCounter := 1 }

/-- DTO-variant `create`: `{ id: this.idCounter++, ...createUserDto }` is
pushed and returned; the counter is incremented. -/
def create (s : ServiceState) (dto : CreateUserDto) : ServiceState × User :=
  let user : User := { id := s.idCounter, name := dto.name, email := dto.email }
  ({ users := s.users ++ [user], idCounter := s.idCounter + 1 }, user)

/-- DTO-variant `findAll`. -/
def findAll (s : ServiceState) : List User :=
  s.users

/-- DTO-variant `findOne`. -/
def findOne (s : ServiceState) (id : Nat) : Option User :=
  s.users.find? (fun user => user.id == id)

/-- The JavaScript spread `{ ...user, ...updateUserDto }`: a field present
in the DTO overrides the stored field, an omitted field keeps the stored
value; the id is never in the DTO, so it is kept. -/
def mergeUser (user : User) (dto : UpdateUserDto) : User :=
  { id := user.id
    name := dto.name.getD user.name
    email := dto.email.getD user.email }

/-- DTO-variant `update`: shallow-merges the DTO into the first record
with the given id, in place, and returns the merged record; `null` if no
record matches. The inner `none` fallback is unreachable: in the source
the index returned by `findIndex` is always in bounds, and here
`findIdx?` only returns in-bounds indices. -/
def update (s : ServiceState) (id : Nat) (dto : UpdateUserDto) :
    ServiceState × Option User :=
  match s.users.findIdx? (fun user => user.id == id) with
  | some userIndex =>
      match s.users[userIndex]? with
      | some stored =>
          let merged := mergeUser stored dto
          ({ s with users := s.users.set userIndex merged }, some merged)
      | none => (s, none)
  | none => (s, none)

/-- DTO-variant `remove`: identical to the base variant on the array, the
counter is untouched. -/
def remove (s : ServiceState) (id : Nat) : ServiceState × Bool :=
  match s.users.findIdx? (fun user => user.id == id) with
  | some userIndex => ({ s with users := s.users.eraseIdx userIndex }, true)
  | none => (s, false)

end Dto

/-- The C1 scenario, base variant, step by step. -/
def baseStep1 : List User × User := Base.create [] "Alice" "a@x.com"

def baseStep2 : List User × User := Base.create baseStep1.1 "Bob" "b@x.com"

def baseStep3 : List User × Bool := Base.remove baseStep2.1 1

def baseStep4 : List User × User := Base.create baseStep3.1 "Carol" "c@x.com"

/-- The C1 scenario, DTO variant, step by step. -/
def dtoStep1 : Dto.ServiceState × User :=
  Dto.create Dto.initState { name := "Alice", email := "a@x.com" }

def dtoStep2 : Dto.ServiceState × User :=
  Dto.create dtoStep1.1 { name := "Bob", email := "b@x.com" }

def dtoStep3 : Dto.ServiceState × Bool := Dto.remove dtoStep2.1 1

def dtoStep4 : Dto.ServiceState × User :=
  Dto.create dtoStep3.1 { name := "Carol", email := "c@x.com" }

/-- If `findIdx?` finds its first match at index `i`, then `find?` returns
the element stored at index `i`. -/
theorem find?_eq_getElem?_of_findIdx?_eq_some {α : Type} {p : α → Bool}
    {l : List α} {i : Nat} (h : l.findIdx? p = some i) : l.find? p = l[i]? := by
  induction l generalizing i with
  | nil => simp at h
  | cons a l ih =>
    rw [List.findIdx?_cons] at h
    by_cases hpa : p a
    · simp only [hpa, if_true, Option.some.injEq] at h
      subst h
      simp [List.find?_cons_of_pos _ hpa]
    · rw [if_neg hpa, List.findIdx?_succ] at h
      cases hi : l.findIdx? p with
      | none => rw [hi] at h; simp at h
      | some k =>
        rw [hi] at h
        simp only [Option.map_some'] at h
        obtain rfl : k + 1 = i := Option.some.inj h
        rw [List.find?_cons_of_neg _ hpa, List.getElem?_cons_succ]
        exact ih hi

/-- In a list whose projected ids are pairwise distinct, two different
positions cannot both hold a record with the same id. -/
theorem nodup_ids_unique_index {users : List User} {id : Nat} {i j : Nat}
    (hnd : (users.map User.id).Nodup)
    (hi : i < users.length) (hj : j < users.length)
    (hne : i ≠ j) (hpi : (users.get ⟨i, hi⟩).id = id) :
    (users.get ⟨j, hj⟩).id ≠ id := by
  intro hpj
  apply hne
  have hmi : i < (users.map User.id).length := by simpa using hi
  have hmj : j < (users.map User.id).length := by simpa using hj
  have : (users.map User.id)[i] = (users.map User.id)[j] := by
    simp only [List.getElem_map]
    simp only [List.get_eq_getElem] at hpi hpj
    rw [hpi, hpj]
  exact (List.Nodup.getElem_inj_iff hnd).mp this

/-- Claim C3: the base-variant `create` assigns id = current record
count + 1, appends `{id, name, email}` at the end, and returns exactly
that record; as a total function it never fails. -/
theorem c3_base_create (users : List User) (name email : String) :
    (Base.create users name email).2 =
      { id := users.length + 1, name := name, email := email } ∧
    (Base.create users name email).1 =
      users ++ [{ id := users.length + 1, name := name, email := email }] :=
  ⟨rfl, rfl⟩

/-- Running the base-variant `create` once for each input pair, in order,
starting from the given store. -/
def createMany (users : List User) (inputs : List (String × String)) :
    List User :=
  match inputs with
  | [] => users
  | (name, email) :: rest => createMany (Base.create users name email).1 rest

/-- The store contents the spec predicts after the inputs are created in
order on top of `count` already-stored records: ids `count+1, count+2, …`
paired with the inputs in creation order. -/
def expectedUsers (count : Nat) (inputs : List (String × String)) :
    List User :=
  match inputs with
  | [] => []
  | (name, email) :: rest =>
      { id := count + 1, name := name, email := email } ::
        expectedUsers (count + 1) rest

theorem expectedUsers_length (count : Nat) (inputs : List (String × String)) :
    (expectedUsers count inputs).length = inputs.length := by
  induction inputs generalizing count with
  | nil => rfl
  | cons p rest ih =>
    obtain ⟨name, email⟩ := p
    simp [expectedUsers, ih]

theorem createMany_eq (users : List User) (inputs : List (String × String)) :
    createMany users inputs = users ++ expectedUsers users.length inputs := by
  induction inputs generalizing users with
  | nil => simp [createMany, expectedUsers]
  | cons p rest ih =>
    obtain ⟨name, email⟩ := p
    rw [createMany, expectedUsers, ih]
    simp [Base.create]

/-- Claim C9: starting from the empty store, after `n` creates and no
other operation, `findAll` returns exactly `n` records, in creation
order with ids `1..n` and the submitted fields. -/
theorem c9_findAll_after_creates (inputs : List (String × String)) :
    Base.findAll (createMany [] inputs) = expectedUsers 0 inputs ∧
    (createMany [] inputs).length = inputs.length := by
  have h := createMany_eq [] inputs
  simp only [List.nil_append, List.length_nil] at h
  exact ⟨h, by rw [h, expectedUsers_length]⟩

/-- Claim C1: in the scenario create Alice, create Bob, remove 1,
create Carol, the first create returns id 1, the second id 2, the
removal returns true, and the final create returns id 2 in the base
variant (colliding with Bob's id, which is still stored) but id 3 in the
DTO-counter variant. -/
theorem c1_scenario :
    baseStep1.2.id = 1 ∧ baseStep2.2.id = 2 ∧ baseStep3.2 = true ∧
    baseStep4.2.id = 2 ∧
    (∃ u ∈ baseStep3.1, u.id = 2 ∧ u.name = "Bob") ∧
    dtoStep1.2.id = 1 ∧ dtoStep2.2.id = 2 ∧ dtoStep3.2 = true ∧
    dtoStep4.2.id = 3 := by
  refine ⟨rfl, rfl, rfl, rfl, ⟨⟨2, "Bob", "b@x.com"⟩, ?_, rfl, rfl⟩, rfl, rfl, rfl, rfl⟩
  simp [baseStep3, baseStep2, baseStep1, Base.create, Base.remove]

/-- `Dto.remove` is the base-variant `remove` acting on the users array,
with the counter carried through untouched. -/
theorem dto_remove_eq (s : Dto.ServiceState) (id : Nat) :
    Dto.remove s id =
      ({ users := (Base.remove s.users id).1, idCounter := s.idCounter },
       (Base.remove s.users id).2) := by
  unfold Dto.remove Base.remove
  cases s.users.findIdx? (fun user => user.id == id) <;> rfl

/-- `Dto.findOne` is the base-variant `findOne` on the users array. -/
theorem dto_findOne_eq (s : Dto.ServiceState) (id : Nat) :
    Dto.findOne s id = Base.findOne s.users id := rfl

/-- Claim C5: on an id with no matching record, `findOne` returns the
absent sentinel and `update` returns the absent sentinel leaving the
store unchanged — in both variants, and no exception is possible since
both are total functions. -/
theorem c5_absent_id (users : List User) (id : Nat) (name email : String)
    (counter : Nat) (dto : UpdateUserDto) (h : ∀ u ∈ users, u.id ≠ id) :
    Base.findOne users id = none ∧
    Base.update users id name email = (users, none) ∧
    Dto.findOne { users := users, idCounter := counter } id = none ∧
    Dto.update { users := users, idCounter := counter } id dto =
      ({ users := users, idCounter := counter }, none) := by
  have hfalse : ∀ u ∈ users, ((fun user => user.id == id) u) = false := by
    intro u hu
    simpa using h u hu
  have hidx : users.findIdx? (fun user => user.id == id) = none :=
    List.findIdx?_eq_none_iff.mpr hfalse
  refine ⟨?_, ?_, ?_, ?_⟩
  · exact List.find?_eq_none.mpr (fun u hu => by simpa using h u hu)
  · simp [Base.update, hidx]
  · exact List.find?_eq_none.mpr (fun u hu => by simpa using h u hu)
  · simp [Dto.update, hidx]

/-- Witness for C5 at a concrete store and a concrete missing id. -/
theorem c5_absent_id_witness :
    Base.findOne [{ id := 1, name := "Ana", email := "ana@x.com" }] 2 = none ∧
    Base.update [{ id := 1, name := "Ana", email := "ana@x.com" }] 2 "N" "E" =
      ([{ id := 1, name := "Ana", email := "ana@x.com" }], none) ∧
    Dto.findOne { users := [{ id := 1, name := "Ana", email := "ana@x.com" }],
                  idCounter := 2 } 2 = none ∧
    Dto.update { users := [{ id := 1, name := "Ana", email := "ana@x.com" }],
                 idCounter := 2 } 2 { name := some "N", email := none } =
      ({ users := [{ id := 1, name := "Ana", email := "ana@x.com" }],
         idCounter := 2 }, none) :=
  c5_absent_id [{ id := 1, name := "Ana", email := "ana@x.com" }] 2 "N" "E" 2
    { name := some "N", email := none } (by decide)

/-- The duplicate-id store the C1 scenario leaves behind in the base
variant: Bob and Carol both carry id 2. -/
def dupState : List User :=
  [{ id := 2, name := "Bob", email := "b@x.com" },
   { id := 2, name := "Carol", email := "c@x.com" }]

/-- Counterexample to C4 as stated: `dupState` is a store state the base
variant reaches (it is the store after the C1 scenario), id 2 is present,
`remove 2` returns true and shrinks the store by one — but the subsequent
`findOne 2` still returns Carol, not the absent sentinel. -/
theorem c4_counterexample :
    dupState = baseStep4.1 ∧
    (∃ u ∈ dupState, u.id = 2) ∧
    (Base.remove dupState 2).2 = true ∧
    (Base.remove dupState 2).1.length + 1 = dupState.length ∧
    Base.findOne (Base.remove dupState 2).1 2 =
      some { id := 2, name := "Carol", email := "c@x.com" } := by
  refine ⟨rfl, ⟨{ id := 2, name := "Bob", email := "b@x.com" }, ?_, rfl⟩,
    rfl, rfl, rfl⟩
  simp [dupState]

/-- Claim C4 (amended): provided no two stored records share an id,
`remove` on a present id returns true, shrinks the store by exactly one,
and a subsequent `findOne` on that id is absent; `remove` on an absent id
returns false and leaves the store untouched (no id-uniqueness needed).
The final conjunct transports both parts to the DTO variant, whose
`remove`/`findOne` coincide with the base ones on the users array. -/
theorem c4_remove (users : List User) (id : Nat) :
    ((users.map User.id).Nodup → (∃ u ∈ users, u.id = id) →
      (Base.remove users id).2 = true ∧
      (Base.remove users id).1.length + 1 = users.length ∧
      Base.findOne (Base.remove users id).1 id = none) ∧
    ((∀ u ∈ users, u.id ≠ id) →
      (Base.remove users id).2 = false ∧ (Base.remove users id).1 = users) ∧
    (∀ counter : Nat,
      Dto.remove { users := users, idCounter := counter } id =
        ({ users := (Base.remove users id).1, idCounter := counter },
         (Base.remove users id).2) ∧
      Dto.findOne { users := users, idCounter := counter } id =
        Base.findOne users id) := by
  refine ⟨?_, ?_, fun counter => ⟨dto_remove_eq _ id, rfl⟩⟩
  · intro hnd hex
    obtain ⟨u, hu, hu_id⟩ := hex
    have hsome : (users.findIdx? (fun user => user.id == id)).isSome := by
      rw [List.findIdx?_isSome, List.any_eq_true]
      exact ⟨u, hu, by simpa using hu_id⟩
    obtain ⟨i, hidx⟩ := Option.isSome_iff_exists.mp hsome
    obtain ⟨hlt, hpi, hfirst⟩ := List.findIdx?_eq_some_iff_getElem.mp hidx
    have hrm : Base.remove users id = (users.eraseIdx i, true) := by
      simp [Base.remove, hidx]
    refine ⟨by rw [hrm], ?_, ?_⟩
    · rw [hrm]
      show (users.eraseIdx i).length + 1 = users.length
      have hlen := List.length_eraseIdx_of_lt hlt
      omega
    · rw [hrm]
      apply List.find?_eq_none.mpr
      intro x hx
      obtain ⟨j, hj⟩ := List.mem_iff_getElem?.mp hx
      rw [List.getElem?_eraseIdx] at hj
      by_cases hji : j < i
      · rw [if_pos hji] at hj
        obtain ⟨hjlt, hjx⟩ := List.getElem?_eq_some_iff.mp hj
        have := hfirst j hji
        subst hjx
        simpa using this
      · rw [if_neg hji] at hj
        obtain ⟨hjlt, hjx⟩ := List.getElem?_eq_some_iff.mp hj
        have hne : i ≠ j + 1 := by omega
        have hid : (users.get ⟨i, hlt⟩).id = id := by
          simpa using hpi
        have := nodup_ids_unique_index hnd hlt hjlt hne hid
        simp only [List.get_eq_getElem] at this
        subst hjx
        simpa using this
  · intro h
    have hidx : users.findIdx? (fun user => user.id == id) = none :=
      List.findIdx?_eq_none_iff.mpr (fun u hu => by simpa using h u hu)
    simp [Base.remove, hidx]

/-- Witness for C4 (amended): both branches exercised on concrete
stores with distinct ids. -/
theorem c4_remove_witness :
    ((Base.remove [{ id := 1, name := "Ana", email := "a@x" },
                   { id := 2, name := "Eli", email := "e@x" }] 1).2 = true ∧
     (Base.remove [{ id := 1, name := "Ana", email := "a@x" },
                   { id := 2, name := "Eli", email := "e@x" }] 1).1.length + 1 = 2 ∧
     Base.findOne (Base.remove [{ id := 1, name := "Ana", email := "a@x" },
                   { id := 2, name := "Eli", email := "e@x" }] 1).1 1 = none) ∧
    ((Base.remove [{ id := 1, name := "Ana", email := "a@x" }] 7).2 = false ∧
     (Base.remove [{ id := 1, name := "Ana", email := "a@x" }] 7).1 =
       [{ id := 1, name := "Ana", email := "a@x" }]) := by
  constructor
  · exact (c4_remove [{ id := 1, name := "Ana", email := "a@x" },
      { id := 2, name := "Eli", email := "e@x" }] 1).1 (by decide)
      ⟨{ id := 1, name := "Ana", email := "a@x" }, by decide, rfl⟩
  · exact ((c4_remove [{ id := 1, name := "Ana", email := "a@x" }] 7).2.1
      (by decide))

/-- Claim C6: in the base variant, when the first record with the given
id sits at position `i`, `update` returns `{id, name, email}`, stores it
at position `i`, keeps the record count, leaves every other position
untouched, and position `i` did hold a record with that id. -/
theorem c6_base_update (users : List User) (id : Nat) (name email : String)
    (i : Nat) (hidx : users.findIdx? (fun user => user.id == id) = some i) :
    (Base.update users id name email).2 =
      some { id := id, name := name, email := email } ∧
    (Base.update users id name email).1.length = users.length ∧
    (Base.update users id name email).1[i]? =
      some { id := id, name := name, email := email } ∧
    (∃ u, users[i]? = some u ∧ u.id = id) ∧
    ∀ j, j ≠ i → (Base.update users id name email).1[j]? = users[j]? := by
  obtain ⟨hlt, hpi, hfirst⟩ := List.findIdx?_eq_some_iff_getElem.mp hidx
  have hupd : Base.update users id name email =
      (users.set i { id := id, name := name, email := email },
       some { id := id, name := name, email := email }) := by
    simp [Base.update, hidx]
  refine ⟨by rw [hupd], ?_, ?_, ?_, ?_⟩
  · rw [hupd]
    exact List.length_set users i _
  · rw [hupd]
    exact List.getElem?_set_self hlt
  · exact ⟨users[i], List.getElem?_eq_getElem hlt, by simpa using hpi⟩
  · intro j hj
    rw [hupd]
    exact List.getElem?_set_ne (Ne.symm hj)

/-- Witness for C6 on a two-record store, updating the record with id 2
sitting at position 1. -/
theorem c6_base_update_witness :
    (Base.update [{ id := 1, name := "Ana", email := "a@x" },
                  { id := 2, name := "Eli", email := "e@x" }] 2 "N" "E").2 =
      some { id := 2, name := "N", email := "E" } ∧
    (Base.update [{ id := 1, name := "Ana", email := "a@x" },
                  { id := 2, name := "Eli", email := "e@x" }] 2 "N" "E").1.length = 2 ∧
    (Base.update [{ id := 1, name := "Ana", email := "a@x" },
                  { id := 2, name := "Eli", email := "e@x" }] 2 "N" "E").1[1]? =
      some { id := 2, name := "N", email := "E" } ∧
    (∃ u, ([{ id := 1, name := "Ana", email := "a@x" },
            { id := 2, name := "Eli", email := "e@x" }] : List User)[1]? = some u ∧
          u.id = 2) ∧
    ∀ j, j ≠ 1 →
      (Base.update [{ id := 1, name := "Ana", email := "a@x" },
                    { id := 2, name := "Eli", email := "e@x" }] 2 "N" "E").1[j]? =
        ([{ id := 1, name := "Ana", email := "a@x" },
          { id := 2, name := "Eli", email := "e@x" }] : List User)[j]? :=
  c6_base_update [{ id := 1, name := "Ana", email := "a@x" },
    { id := 2, name := "Eli", email := "e@x" }] 2 "N" "E" 1 rfl

/-- Claim C7: in the DTO variant, when the first record with the given
id sits at position `i` and is `u`, `update` stores and returns the
shallow merge of `u` with the DTO: present DTO fields win, omitted
fields keep `u`'s value, the id is kept; the record stays at position
`i`, all other positions and the counter are untouched. -/
theorem c7_dto_update (s : Dto.ServiceState) (id : Nat) (dto : UpdateUserDto)
    (i : Nat) (u : User)
    (hidx : s.users.findIdx? (fun user => user.id == id) = some i)
    (hu : s.users[i]? = some u) :
    (Dto.update s id dto).2 = some (Dto.mergeUser u dto) ∧
    (Dto.update s id dto).1.users[i]? = some (Dto.mergeUser u dto) ∧
    (Dto.update s id dto).1.users.length = s.users.length ∧
    (Dto.update s id dto).1.idCounter = s.idCounter ∧
    (∀ j, j ≠ i → (Dto.update s id dto).1.users[j]? = s.users[j]?) ∧
    (Dto.mergeUser u dto).id = u.id ∧
    (∀ n, dto.name = some n → (Dto.mergeUser u dto).name = n) ∧
    (dto.name = none → (Dto.mergeUser u dto).name = u.name) ∧
    (∀ e, dto.email = some e → (Dto.mergeUser u dto).email = e) ∧
    (dto.email = none → (Dto.mergeUser u dto).email = u.email) := by
  obtain ⟨hlt, hpi, hfirst⟩ := List.findIdx?_eq_some_iff_getElem.mp hidx
  have hupd : Dto.update s id dto =
      ({ s with users := s.users.set i (Dto.mergeUser u dto) },
       some (Dto.mergeUser u dto)) := by
    simp [Dto.update, hidx, hu]
  refine ⟨by rw [hupd], ?_, ?_, ?_, ?_, rfl, ?_, ?_, ?_, ?_⟩
  · rw [hupd]
    exact List.getElem?_set_self hlt
  · rw [hupd]
    exact List.length_set s.users i _
  · rw [hupd]
  · intro j hj
    rw [hupd]
    exact List.getElem?_set_ne (Ne.symm hj)
  · intro n hn
    simp [Dto.mergeUser, hn]
  · intro hn
    simp [Dto.mergeUser, hn]
  · intro e he
    simp [Dto.mergeUser, he]
  · intro he
    simp [Dto.mergeUser, he]

/-- Witness for C7: a partial DTO carrying only a new name is merged
into the record with id 2; the email keeps its prior value. -/
theorem c7_dto_update_witness :
    (Dto.update { users := [{ id := 2, name := "Eli", email := "e@x" }],
                  idCounter := 3 } 2 { name := some "N", email := none }).2 =
      some (Dto.mergeUser { id := 2, name := "Eli", email := "e@x" }
        { name := some "N", email := none }) ∧
    (Dto.update { users := [{ id := 2, name := "Eli", email := "e@x" }],
                  idCounter := 3 } 2 { name := some "N", email := none }).1.users[0]? =
      some (Dto.mergeUser { id := 2, name := "Eli", email := "e@x" }
        { name := some "N", email := none }) ∧
    (Dto.update { users := [{ id := 2, name := "Eli", email := "e@x" }],
                  idCounter := 3 } 2 { name := some "N", email := none }).1.users.length = 1 ∧
    (Dto.update { users := [{ id := 2, name := "Eli", email := "e@x" }],
                  idCounter := 3 } 2 { name := some "N", email := none }).1.idCounter = 3 ∧
    (∀ j, j ≠ 0 →
      (Dto.update { users := [{ id := 2, name := "Eli", email := "e@x" }],
                    idCounter := 3 } 2 { name := some "N", email := none }).1.users[j]? =
        ([{ id := 2, name := "Eli", email := "e@x" }] : List User)[j]?) ∧
    (Dto.mergeUser { id := 2, name := "Eli", email := "e@x" }
        { name := some "N", email := none }).id = 2 ∧
    (∀ n, (({ name := some "N", email := none } : UpdateUserDto)).name = some n →
      (Dto.mergeUser { id := 2, name := "Eli", email := "e@x" }
        { name := some "N", email := none }).name = n) ∧
    ((({ name := some "N", email := none } : UpdateUserDto)).name = none →
      (Dto.mergeUser { id := 2, name := "Eli", email := "e@x" }
        { name := some "N", email := none }).name = "Eli") ∧
    (∀ e, (({ name := some "N", email := none } : UpdateUserDto)).email = some e →
      (Dto.mergeUser { id := 2, name := "Eli", email := "e@x" }
        { name := some "N", email := none }).email = e) ∧
    ((({ name := some "N", email := none } : UpdateUserDto)).email = none →
      (Dto.mergeUser { id := 2, name := "Eli", email := "e@x" }
        { name := some "N", email := none }).email = "e@x") :=
  c7_dto_update
    { users := [{ id := 2, name := "Eli", email := "e@x" }],
      idCounter := 3 }
    2 { name := some "N", email := none } 0
    { id := 2, name := "Eli", email := "e@x" } rfl rfl

/-- Claim C10: in the base variant, when duplicate ids exist, the
earliest matching position `i` is the one `findOne` returns and the one
`update`/`remove` act on, and a later record `v` with the same id (at
position `j > i`) survives unchanged: still at `j` after `update`, and at
`j - 1` after `remove` splices out position `i`. -/
theorem c10_first_match (users : List User) (id : Nat) (name email : String)
    (i j : Nat) (v : User)
    (hidx : users.findIdx? (fun user => user.id == id) = some i)
    (hij : i < j) (hv : users[j]? = some v) (hvid : v.id = id) :
    Base.findOne users id = users[i]? ∧
    (Base.update users id name email).1[j]? = some v ∧
    (Base.update users id name email).2 =
      some { id := id, name := name, email := email } ∧
    (Base.remove users id).2 = true ∧
    (Base.remove users id).1 = users.eraseIdx i ∧
    (Base.remove users id).1[j - 1]? = some v := by
  have hfind := find?_eq_getElem?_of_findIdx?_eq_some hidx
  have hupd : Base.update users id name email =
      (users.set i { id := id, name := name, email := email },
       some { id := id, name := name, email := email }) := by
    simp [Base.update, hidx]
  have hrm : Base.remove users id = (users.eraseIdx i, true) := by
    simp [Base.remove, hidx]
  refine ⟨hfind, ?_, by rw [hupd], by rw [hrm], by rw [hrm], ?_⟩
  · rw [hupd]
    show (users.set i _)[j]? = some v
    rw [List.getElem?_set_ne (Nat.ne_of_lt hij), hv]
  · rw [hrm]
    show (users.eraseIdx i)[j - 1]? = some v
    rw [List.getElem?_eraseIdx]
    rw [if_neg (by omega)]
    have hj1 : j - 1 + 1 = j := by omega
    rw [hj1, hv]

/-- Witness for C10 on the duplicate-id store left by the C1 scenario:
Bob and Carol both have id 2, Bob at position 0, Carol at position 1. -/
theorem c10_first_match_witness :
    Base.findOne dupState 2 = dupState[0]? ∧
    (Base.update dupState 2 "N" "E").1[1]? =
      some { id := 2, name := "Carol", email := "c@x.com" } ∧
    (Base.update dupState 2 "N" "E").2 =
      some { id := 2, name := "N", email := "E" } ∧
    (Base.remove dupState 2).2 = true ∧
    (Base.remove dupState 2).1 = dupState.eraseIdx 0 ∧
    (Base.remove dupState 2).1[1 - 1]? =
      some { id := 2, name := "Carol", email := "c@x.com" } :=
  c10_first_match dupState 2 "N" "E" 0 1
    { id := 2, name := "Carol", email := "c@x.com" }
    rfl (by decide) rfl rfl

/-- Setting a position to the value it already holds leaves the list
unchanged. -/
theorem set_getElem?_self {α : Type} {l : List α} {i : Nat} {a : α}
    (h : l[i]? = some a) : l.set i a = l := by
  apply List.ext_getElem?
  intro n
  by_cases hn : n = i
  · subst hn
    obtain ⟨hlt, rfl⟩ := List.getElem?_eq_some_iff.mp h
    rw [List.getElem?_set_self hlt]
    exact (List.getElem?_eq_getElem hlt).symm
  · exact List.getElem?_set_ne (Ne.symm hn)

/-- The states a DTO-variant service can be in: the freshly constructed
state, closed under the three mutating operations. -/
inductive Reachable : Dto.ServiceState → Prop where
  | init : Reachable Dto.initState
  | create (s : Dto.ServiceState) (dto : CreateUserDto) :
      Reachable s → Reachable (Dto.create s dto).1
  | update (s : Dto.ServiceState) (id : Nat) (dto : UpdateUserDto) :
      Reachable s → Reachable (Dto.update s id dto).1
  | remove (s : Dto.ServiceState) (id : Nat) :
      Reachable s → Reachable (Dto.remove s id).1

/-- The DTO-variant store invariant: every stored id is below the
counter, and the stored ids are pairwise distinct. -/
def GoodState (s : Dto.ServiceState) : Prop :=
  (∀ u ∈ s.users, u.id < s.idCounter) ∧ (s.users.map User.id).Nodup

theorem goodState_init : GoodState Dto.initState :=
  ⟨by intro u hu; simp [Dto.initState] at hu, by simp [Dto.initState]⟩

theorem goodState_create (s : Dto.ServiceState) (dto : CreateUserDto)
    (h : GoodState s) : GoodState (Dto.create s dto).1 := by
  obtain ⟨hlt, hnd⟩ := h
  constructor
  · intro u hu
    simp only [Dto.create, List.mem_append, List.mem_singleton] at hu
    rcases hu with hu | hu
    · exact Nat.lt_succ_of_lt (hlt u hu)
    · subst hu
      exact Nat.lt_succ_self _
  · show ((s.users ++ [_]).map User.id).Nodup
    rw [List.map_append]
    rw [List.nodup_append]
    refine ⟨hnd, List.nodup_singleton _, ?_⟩
    intro x hx hx1
    simp only [List.map_singleton, List.mem_singleton] at hx1
    obtain ⟨u, hu, rfl⟩ := List.mem_map.mp hx
    exact absurd hx1 (Nat.ne_of_lt (hlt u hu))

theorem dto_update_users_map_id (s : Dto.ServiceState) (id : Nat)
    (dto : UpdateUserDto) :
    (Dto.update s id dto).1.users.map User.id = s.users.map User.id ∧
    (Dto.update s id dto).1.idCounter = s.idCounter := by
  cases hidx : s.users.findIdx? (fun user => user.id == id) with
  | none => simp [Dto.update, hidx]
  | some i =>
    obtain ⟨hlt, hpi, hfirst⟩ := List.findIdx?_eq_some_iff_getElem.mp hidx
    have hupd : Dto.update s id dto =
        ({ s with users := s.users.set i (Dto.mergeUser s.users[i] dto) },
         some (Dto.mergeUser s.users[i] dto)) := by
      simp [Dto.update, hidx, List.getElem?_eq_getElem hlt]
    rw [hupd]
    refine ⟨?_, rfl⟩
    show ((s.users.set i (Dto.mergeUser s.users[i] dto)).map User.id) =
      s.users.map User.id
    rw [List.map_set]
    exact set_getElem?_self (by
      rw [List.getElem?_map, List.getElem?_eq_getElem hlt]
      rfl)

theorem goodState_update (s : Dto.ServiceState) (id : Nat)
    (dto : UpdateUserDto) (h : GoodState s) :
    GoodState (Dto.update s id dto).1 := by
  obtain ⟨hlt, hnd⟩ := h
  obtain ⟨hmap, hcnt⟩ := dto_update_users_map_id s id dto
  constructor
  · intro u hu
    rw [hcnt]
    have : u.id ∈ (Dto.update s id dto).1.users.map User.id :=
      List.mem_map.mpr ⟨u, hu, rfl⟩
    rw [hmap] at this
    obtain ⟨v, hv, hvu⟩ := List.mem_map.mp this
    rw [← hvu]
    exact hlt v hv
  · rw [hmap]
    exact hnd

theorem goodState_remove (s : Dto.ServiceState) (id : Nat)
    (h : GoodState s) : GoodState (Dto.remove s id).1 := by
  obtain ⟨hlt, hnd⟩ := h
  unfold Dto.remove
  cases hidx : s.users.findIdx? (fun user => user.id == id) with
  | none => exact ⟨hlt, hnd⟩
  | some i =>
    constructor
    · intro u hu
      exact hlt u (List.eraseIdx_subset _ _ hu)
    · exact List.Nodup.sublist (List.Sublist.map _ (List.eraseIdx_sublist _ _)) hnd

/-- Every reachable DTO-variant state satisfies the store invariant. -/
theorem reachable_goodState (s : Dto.ServiceState) (h : Reachable s) :
    GoodState s := by
  induction h with
  | init => exact goodState_init
  | create s dto _ ih => exact goodState_create s dto ih
  | update s id dto _ ih => exact goodState_update s id dto ih
  | remove s id _ ih => exact goodState_remove s id ih

/-- Claim C8: in the DTO variant, no two records of any reachable state
share an id; the counter is monotonic — no operation ever decreases it —
and `create` hands out the current counter value and retires it. -/
theorem c8_dto_id_unique (s : Dto.ServiceState) (h : Reachable s) :
    (s.users.map User.id).Nodup ∧
    (∀ u ∈ s.users, u.id < s.idCounter) ∧
    ∀ (cdto : CreateUserDto) (id : Nat) (udto : UpdateUserDto),
      (Dto.create s cdto).1.idCounter = s.idCounter + 1 ∧
      (Dto.create s cdto).2.id = s.idCounter ∧
      (Dto.update s id udto).1.idCounter = s.idCounter ∧
      (Dto.remove s id).1.idCounter = s.idCounter := by
  obtain ⟨hlt, hnd⟩ := reachable_goodState s h
  refine ⟨hnd, hlt, fun cdto id udto => ⟨rfl, rfl, ?_, ?_⟩⟩
  · exact (dto_update_users_map_id s id udto).2
  · unfold Dto.remove
    cases s.users.findIdx? (fun user => user.id == id) <;> rfl

/-- Witness for C8 at the state the C1 scenario reaches in the DTO
variant (Bob and Carol stored, counter 4). -/
theorem c8_dto_id_unique_witness :
    ((dtoStep4.1.users.map User.id).Nodup ∧
     (∀ u ∈ dtoStep4.1.users, u.id < dtoStep4.1.idCounter) ∧
     ∀ (cdto : CreateUserDto) (id : Nat) (udto : UpdateUserDto),
       (Dto.create dtoStep4.1 cdto).1.idCounter = dtoStep4.1.idCounter + 1 ∧
       (Dto.create dtoStep4.1 cdto).2.id = dtoStep4.1.idCounter ∧
       (Dto.update dtoStep4.1 id udto).1.idCounter = dtoStep4.1.idCounter ∧
       (Dto.remove dtoStep4.1 id).1.idCounter = dtoStep4.1.idCounter) :=
  c8_dto_id_unique dtoStep4.1
    (Reachable.create dtoStep3.1 { name := "Carol", email := "c@x.com" }
      (Reachable.remove dtoStep2.1 1
        (Reachable.create dtoStep1.1 { name := "Bob", email := "b@x.com" }
          (Reachable.create Dto.initState { name := "Alice", email := "a@x.com" }
            Reachable.init))))

/-- The states a base-variant store can be in: the freshly constructed
empty array, closed under the three mutating operations. -/
inductive BaseReachable : List User → Prop where
  | init : BaseReachable []
  | create (users : List User) (name email : String) :
      BaseReachable users → BaseReachable (Base.create users name email).1
  | update (users : List User) (id : Nat) (name email : String) :
      BaseReachable users → BaseReachable (Base.update users id name email).1
  | remove (users : List User) (id : Nat) :
      BaseReachable users → BaseReachable (Base.remove users id).1

/-- Counterexample to C2 as stated: the base-variant store `[Bob]` with
Bob's id 2 is reachable (create Alice, create Bob, remove 1), yet
`create "Carol"` returns a record whose id equals Bob's id. -/
theorem c2_counterexample :
    BaseReachable baseStep3.1 ∧
    (∃ u ∈ baseStep3.1, u.id = (Base.create baseStep3.1 "Carol" "c@x.com").2.id) := by
  constructor
  · exact BaseReachable.remove baseStep2.1 1
      (BaseReachable.create baseStep1.1 "Bob" "b@x.com"
        (BaseReachable.create [] "Alice" "a@x.com" BaseReachable.init))
  · exact ⟨{ id := 2, name := "Bob", email := "b@x.com" }, by decide, rfl⟩

/-- Claim C2 (amended): id freshness at `create` holds in the DTO
variant for every reachable state and every input, while the base
variant violates it on a reachable state (see the counterexample). -/
theorem c2_dto_fresh_id (s : Dto.ServiceState) (h : Reachable s)
    (dto : CreateUserDto) :
    ∀ u ∈ s.users, (Dto.create s dto).2.id ≠ u.id := by
  intro u hu
  have hlt := (reachable_goodState s h).1 u hu
  show s.idCounter ≠ u.id
  omega

/-- Witness for C2 (amended): creating Bob on the reachable one-record
state that holds Alice yields an id different from Alice's. -/
theorem c2_dto_fresh_id_witness :
    (Dto.create dtoStep1.1 { name := "Bob", email := "b@x.com" }).2.id ≠
      ({ id := 1, name := "Alice", email := "a@x.com" } : User).id :=
  c2_dto_fresh_id dtoStep1.1
    (Reachable.create Dto.initState { name := "Alice", email := "a@x.com" }
      Reachable.init)
    { name := "Bob", email := "b@x.com" }
    { id := 1, name := "Alice", email := "a@x.com" } (by decide)
